import Mathlib

/-!
Verification development for the vPET-ABC voxelwise kinetic-modeling pipeline
(`vPET_ABC_FDG_GPU.py`).  The numeric arrays of the source are embedded as
lists of rationals (`List ℚ`); the float16/float32 precision of the source is
out of scope, the algebraic content of each operation is kept.
-/

set_option linter.unusedVariables false

namespace VPET

/-- L1 distance between two equally long series
(`cp.sum(cp.abs(M - Ct), axis = -1)` in `calculate_results`). -/
def l1dist (xs ys : List ℚ) : ℚ :=
  (List.zipWith (fun a b => |a - b|) xs ys).sum

/-- Insertion step of the value sort used by the quantile computation. -/
def insertSorted (x : ℚ) : List ℚ → List ℚ
  | [] => [x]
  | y :: ys => if x ≤ y then x :: y :: ys else y :: insertSorted x ys

/-- Ascending value sort (the sort inside `cp.quantile`). -/
def sortList : List ℚ → List ℚ
  | [] => []
  | x :: xs => insertSorted x (sortList xs)

/-- The `cp.quantile(xs, q)` value with the default linear interpolation:
the virtual rank is `q * (n - 1)`; the result interpolates between the
floor and ceiling rank positions of the ascending sort.  On an empty
`xs`, `cp.quantile` has no value (empty-axis error); this total function
returns 0 there, and every theorem below applies it to nonempty distance
lists only (one distance per prior draw, `S ≥ 1`). -/
def quantile (q : ℚ) (xs : List ℚ) : ℚ :=
  let s := sortList xs
  let n := xs.length
  let pos : ℚ := q * ((n : ℚ) - 1)
  let i : ℕ := (⌊pos⌋).toNat
  let lo := s.getD i 0
  let hi := s.getD (min (i + 1) (n - 1)) 0
  lo + (pos - (i : ℚ)) * (hi - lo)

/-- One row of the prior parameter matrix `par_mat`
(`cp.column_stack((Vb, alpha1, alpha2, theta1, theta2, model))`, a row of
the `(S, 6)` array). -/
structure ParRow where
  Vb : ℚ
  a1 : ℚ
  a2 : ℚ
  t1 : ℚ
  t2 : ℚ
  model : ℚ
deriving Repr, DecidableEq

/-- Number of voxels in a time-major chunk (`Ct.shape[-1]`). -/
def numVox (Ct : List (List ℚ)) : ℕ := (Ct.headD []).length

/-- Transpose of the time-major chunk into voxel-major order
(`Ct.T` in `calculate_results`). -/
def transposeCols (Ct : List (List ℚ)) : List (List ℚ) :=
  (List.range (numVox Ct)).map (fun v => Ct.map (fun row => row.getD v 0))

/-- The `(num_vox, S)` matrix of L1 errors
(`errors = cp.sum(cp.abs(M - Ct), axis = -1)`). -/
def errorsMatrix (M Ct : List (List ℚ)) : List (List ℚ) :=
  (transposeCols Ct).map (fun ct => M.map (fun m => l1dist m ct))

/-- Per-voxel acceptance thresholds
(`h = cp.quantile(errors, thresh, axis = -1)`). -/
def thresholds (thresh : ℚ) (errors : List (List ℚ)) : List ℚ :=
  errors.map (fun e => quantile thresh e)

/-- Acceptance mask (`accepted_mask = errors <= h[:, None]`). -/
def acceptMask (errors : List (List ℚ)) (h : List ℚ) : List (List Bool) :=
  List.zipWith (fun e hv => e.map (fun d => decide (d ≤ hv))) errors h

/-- Number of `true` entries (`cp.count_nonzero`). -/
def countTrue (l : List Bool) : ℕ := (l.filter (fun b => b)).length

/-- Rows of `rows` selected by the boolean mask `m`
(the row-level content of `par_mat[accepted_mask]` for one voxel). -/
def selectRows (m : List Bool) (rows : List ParRow) : List ParRow :=
  ((m.zip rows).filter (fun p => p.1)).map (fun p => p.2)

/-- The flattening `accepted = par_mat[accepted_mask]`: boolean-mask
selection of a `(num_vox, S, 6)` broadcast array flattens in C order, i.e.
voxel-major concatenation of each voxel's selected parameter rows. -/
def flatAccepted (mask : List (List Bool)) (par_mat : List ParRow) : List ParRow :=
  (mask.map (fun mrow => selectRows mrow par_mat)).flatten

/-- Voxel `v`'s slice of the reshaped
`accepted.reshape(num_vox, accepted_size, num_variable)` array. -/
def groupAt (flat : List ParRow) (asz v : ℕ) : List ParRow :=
  (flat.drop (v * asz)).take asz

/-- Number of accepted rows whose model indicator is zero
(the count underlying `cp.mean(models == 0, axis = -1)`). -/
def countZeros (g : List ParRow) : ℕ :=
  (g.filter (fun r => decide (r.model = 0))).length

/-- The acceptance mask of a chunk, from the raw inputs
(`errors`, `h`, `accepted_mask` of `calculate_results` composed). -/
def maskOf (M Ct : List (List ℚ)) (thresh : ℚ) : List (List Bool) :=
  acceptMask (errorsMatrix M Ct) (thresholds thresh (errorsMatrix M Ct))

/-- `accepted_size = int(cp.count_nonzero(accepted_mask[0]))`: the accepted
count of the chunk's first voxel. -/
def acceptedSizeOf (M Ct : List (List ℚ)) (thresh : ℚ) : ℕ :=
  countTrue ((maskOf M Ct thresh).headD [])

/-- The flattened masked selection of a chunk, from the raw inputs. -/
def flatOf (M Ct : List (List ℚ)) (thresh : ℚ) (par_mat : List ParRow) : List ParRow :=
  flatAccepted (maskOf M Ct thresh) par_mat

/-- Voxel `v`'s fraction of accepted draws with model indicator 0
(`percentage_zeros = cp.mean(models == 0, axis = -1)` over the reshaped
acceptance groups). -/
def p0Of (M Ct : List (List ℚ)) (thresh : ℚ) (par_mat : List ParRow) (v : ℕ) : ℚ :=
  (countZeros (groupAt (flatOf M Ct thresh par_mat) (acceptedSizeOf M Ct thresh) v) : ℚ) /
    (acceptedSizeOf M Ct thresh : ℚ)

/-- Result of `calculate_results`: the optional parameter posterior rows
(`Voxel_No` paired with the raw accepted parameter row) and the
`model_p` rows `[Voxel_No, model, percentage_zeros]`. -/
structure CalcResult where
  paraRows : Option (List (ℚ × ParRow))
  modelP : List (List ℚ)
deriving Repr, DecidableEq

/-- Shallow embedding of `calculate_results`.  `Ct` is time-major
(`(num_time_frame, num_vox)`) as produced by `extract_TAC_chunks`.
The two error paths of the source are surfaced as `Except.error`:
indexing `accepted_mask[0]` of an empty axis (IndexError) and the
`reshape(num_vox, accepted_size, num_variable)` failing because the
flattened selection does not have `num_vox * accepted_size` rows
(ValueError). -/
def calculate_results (M : List (List ℚ)) (par_mat : List ParRow)
    (Ct : List (List ℚ)) (S : ℕ) (thresh : ℚ) (write_paras : Bool)
    (model_0_prob_thres : ℚ) (vox_num_start : ℕ) : Except String CalcResult :=
  match (maskOf M Ct thresh).head? with
  | none => Except.error "IndexError: index 0 is out of bounds"
  | some _ =>
    let nv := numVox Ct
    let accepted_size := acceptedSizeOf M Ct thresh
    let flat := flatOf M Ct thresh par_mat
    if flat.length = nv * accepted_size then
      let p0 := p0Of M Ct thresh par_mat
      let label := fun v => if p0 v < model_0_prob_thres then (1 : ℚ) else 0
      let modelP := (List.range nv).map (fun v =>
        [((vox_num_start + v : ℕ) : ℚ), label v, p0 v])
      let paraRows := if write_paras then
          some (((List.range nv).map (fun v =>
            (groupAt flat accepted_size v).map (fun r =>
              (((vox_num_start + v : ℕ) : ℚ), r)))).flatten)
        else none
      Except.ok ⟨paraRows, modelP⟩
    else
      Except.error "ValueError: cannot reshape array"

/-- IEEE-style numeric value for the pandas float arithmetic of
`output_dataframe`: a finite rational, a signed infinity (`true` is
positive), or NaN.  Overflow and rounding of finite values are out of
scope; the finite/non-finite distinction of the source is kept. -/
inductive FP where
  | fin : ℚ → FP
  | inf : Bool → FP
  | nan : FP
deriving Repr, DecidableEq

/-- IEEE negation. -/
def FP.neg : FP → FP
  | FP.fin a => FP.fin (-a)
  | FP.inf s => FP.inf (!s)
  | FP.nan => FP.nan

/-- IEEE addition. -/
def FP.add : FP → FP → FP
  | FP.nan, _ => FP.nan
  | _, FP.nan => FP.nan
  | FP.fin a, FP.fin b => FP.fin (a + b)
  | FP.fin _, FP.inf s => FP.inf s
  | FP.inf s, FP.fin _ => FP.inf s
  | FP.inf s, FP.inf t => if s = t then FP.inf s else FP.nan

/-- IEEE subtraction. -/
def FP.sub (x y : FP) : FP := FP.add x (FP.neg y)

/-- IEEE multiplication. -/
def FP.mul : FP → FP → FP
  | FP.nan, _ => FP.nan
  | _, FP.nan => FP.nan
  | FP.fin a, FP.fin b => FP.fin (a * b)
  | FP.fin a, FP.inf s => if a = 0 then FP.nan else if 0 < a then FP.inf s else FP.inf (!s)
  | FP.inf s, FP.fin a => if a = 0 then FP.nan else if 0 < a then FP.inf s else FP.inf (!s)
  | FP.inf s, FP.inf t => FP.inf (s = t)

/-- IEEE division (an unsigned rational zero divisor yields the infinity
signed by the numerator, matching the positive-zero denominators that
arise in the source). -/
def FP.div : FP → FP → FP
  | FP.nan, _ => FP.nan
  | _, FP.nan => FP.nan
  | FP.fin a, FP.fin b =>
      if b = 0 then (if a = 0 then FP.nan else if 0 < a then FP.inf true else FP.inf false)
      else FP.fin (a / b)
  | FP.fin _, FP.inf _ => FP.fin 0
  | FP.inf s, FP.fin b => if 0 ≤ b then FP.inf s else FP.inf (!s)
  | FP.inf _, FP.inf _ => FP.nan

/-- A value is finite when it is a finite rational. -/
def FP.isFinite : FP → Bool
  | FP.fin _ => true
  | _ => false

/-- The `replace({0: 'k4 zero', 1: 'k4 non-zero'})` mapping applied to the
model column; DataFrame.replace leaves any other value unchanged, and only
0 and 1 occur upstream. -/
def modelLabel (m : ℚ) : String :=
  if m = 0 then "k4 zero" else if m = 1 then "k4 non-zero" else "unchanged"

/-- One row of the parameter posterior produced by `output_dataframe`:
columns `Voxel_No, Vb, K_1, k_2, k_3, k_4, K_i, model`. -/
structure ParaOutRow where
  voxNo : ℚ
  Vb : FP
  K1 : FP
  k2 : FP
  k3 : FP
  k4 : FP
  Ki : FP
  model : String
deriving Repr, DecidableEq

/-- The parameter transform of `output_dataframe` on one accepted row. -/
def paraTransformRow (row : ℚ × ParRow) : ParaOutRow :=
  let Vb := FP.fin row.2.Vb
  let alpha1 := FP.fin row.2.a1
  let alpha2 := FP.fin row.2.a2
  let theta1 := FP.fin row.2.t1
  let theta2 := FP.fin row.2.t2
  let K1 := FP.div (FP.add theta1 theta2) (FP.sub (FP.fin 1) Vb)
  let k2 := FP.div (FP.add (FP.mul theta1 alpha1) (FP.mul theta2 alpha2))
    (FP.add theta1 theta2)
  let k4 := FP.div (FP.mul alpha1 alpha2) k2
  let k3 := FP.sub (FP.sub (FP.add alpha1 alpha2) k2) k4
  let Ki := FP.div (FP.mul K1 k3) (FP.add k2 k3)
  ⟨row.1, Vb, K1, k2, k3, k4, Ki, modelLabel row.2.model⟩

/-- The parameter branch of `output_dataframe`. -/
def output_dataframe_para (rows : List (ℚ × ParRow)) : List ParaOutRow :=
  rows.map paraTransformRow

/-- One row of the model posterior produced by `output_dataframe`:
columns `Voxel_No, model, probability_of_model`. -/
structure ModelOutRow where
  voxNo : ℚ
  model : String
  prob : ℚ
deriving Repr, DecidableEq

/-- The model-posterior transform of `output_dataframe` on one `model_p`
row `[Voxel_No, model, percentage_zeros]`:
`np.where(model == 1, 1 - p, p)` then the label replacement. -/
def modelTransformRow (row : List ℚ) : ModelOutRow :=
  let m := row.getD 1 0
  let p := row.getD 2 0
  ⟨row.getD 0 0, modelLabel m, if m = 1 then 1 - p else p⟩

/-- The model branch of `output_dataframe`. -/
def output_dataframe_model (rows : List (List ℚ)) : List ModelOutRow :=
  rows.map modelTransformRow

/-- `output_dataframe`: the parameter branch runs only under `write_paras`. -/
def output_dataframe (para : Option (List (ℚ × ParRow))) (model_p : List (List ℚ))
    (write_paras : Bool) : Option (List ParaOutRow) × List ModelOutRow :=
  (if write_paras then para.map output_dataframe_para else none,
   output_dataframe_model model_p)

/-- `extract_values`: the first three table columns are
`(time_frame_size, Ti, Cb)` and the function returns
`(time_frame_size, Cb, Ti)`.  Fewer than three columns raises an
IndexError (`df.iloc[:, 2]`), before any output file is initialized. -/
def extract_values (cols : List (List ℚ)) : Except String (List ℚ × List ℚ × List ℚ) :=
  match cols with
  | c0 :: c1 :: c2 :: _ => Except.ok (c0, c2, c1)
  | _ => Except.error "IndexError: single positional indexer is out-of-bounds"

/-- The `if num_voxel is None: num_voxel = df_column_size - 3` resolution
(present both in `extract_TAC_chunks` and in `vABC`). -/
def resolveNumVoxel (num_voxel : Option ℕ) (df_column_size : ℕ) : ℕ :=
  match num_voxel with
  | none => df_column_size - 3
  | some n => n

/-- `extract_TAC_chunks`: the time-major slice
`df.iloc[:, index : min(index + chunk_size, df_column_size, num_voxel + 3)]`.
The table is embedded column-major (`cols`), so the slice selects columns
and re-emits them time-major. -/
def extract_TAC_chunks (cols : List (List ℚ)) (index chunk_size : ℕ)
    (num_voxel : Option ℕ) : List (List ℚ) :=
  let df_column_size := cols.length
  let nv := resolveNumVoxel num_voxel df_column_size
  let chunk_end := min (index + chunk_size) (min df_column_size (nv + 3))
  let T := (cols.headD []).length
  (List.range T).map (fun t =>
    ((cols.drop index).take (chunk_end - index)).map (fun c => c.getD t 0))

/-- Entry `n` of the discrete linear convolution
(`scipy.signal.convolve` semantics): `(a ⊛ b)(n) = Σ_k a(k) · b(n - k)`. -/
def convEntry (a b : List ℚ) (n : ℕ) : ℚ :=
  ∑ k ∈ Finset.range (n + 1), a.getD k 0 * b.getD (n - k) 0

/-- The full discrete linear convolution, length `a.length + b.length - 1`. -/
def convolveFull (a b : List ℚ) : List ℚ :=
  (List.range (a.length + b.length - 1)).map (convEntry a b)

/-- `cumconv`: `sp_convolve(a, b)[..., :num_time_frame]` (the first
`b.length` convolution samples) scaled elementwise by `time_frame_size`. -/
def cumconv (a b tfs : List ℚ) : List ℚ :=
  List.zipWith (fun x y => x * y) ((convolveFull a b).take b.length) tfs

/-- The bi-exponential kernel
`theta1 * exp(-alpha1 * Ti) + theta2 * exp(-alpha2 * Ti)` of
`generate_FDG_models`, with the machine exponential abstracted as `expQ`. -/
def fdgKernel (expQ : ℚ → ℚ) (p : ParRow) (Ti : List ℚ) : List ℚ :=
  Ti.map (fun t => p.t1 * expQ (-(p.a1 * t)) + p.t2 * expQ (-(p.a2 * t)))

/-- One predicted TAC of `generate_FDG_models` (a single prior draw):
`cumconv(kernel, Ca, time_frame_size) + Vb * Cb`. -/
def generate_FDG_model (expQ : ℚ → ℚ) (tfs Cb Ca Ti : List ℚ) (p : ParRow) : List ℚ :=
  List.zipWith (fun x y => x + y) (cumconv (fdgKernel expQ p Ti) Ca tfs)
    (Cb.map (fun c => p.Vb * c))

/-- `generate_FDG_models`, batched over all prior draws. -/
def generate_FDG_models (expQ : ℚ → ℚ) (tfs Cb Ca Ti : List ℚ)
    (par_mat : List ParRow) : List (List ℚ) :=
  par_mat.map (generate_FDG_model expQ tfs Cb Ca Ti)

/-- The tqdm iteration budget of `vABC`:
`min(num_voxel, df_column_size - 3) / chunk_size`, rounded up
(`int(x) if x.is_integer() else int(x) + 1`).  The source raises
ZeroDivisionError for `chunk_size = 0`; all uses have `chunk_size > 0`. -/
def totalIterations (num_voxel df_column_size chunk_size : ℕ) : ℕ :=
  let v := min num_voxel (df_column_size - 3)
  if v % chunk_size = 0 then v / chunk_size else v / chunk_size + 1

/-- The chunk loop of `vABC` (`for _ in tqdm(range(total_iterations))`):
starting at column `index = 3`, iterate over the (ignored) tqdm range
list, breaking when
`index >= df_column_size or index >= num_voxel + 3`; every iteration
calls `calculate_results` with the same predicted-TAC matrix `M` and
`vox_num_start = index - 3`, then advances `index` by `chunk_size`.
A chunk error aborts the run (the source raises through the loop). -/
def runChunks (M : List (List ℚ)) (par_mat : List ParRow)
    (cols : List (List ℚ)) (S : ℕ) (thresh model_0_prob_thres : ℚ)
    (write_paras : Bool) (num_voxel chunk_size : ℕ) :
    List ℕ → ℕ → Except String (List CalcResult)
  | [], _ => Except.ok []
  | _ :: iters, index =>
    if index ≥ cols.length ∨ index ≥ num_voxel + 3 then Except.ok []
    else
      match calculate_results M par_mat
          (extract_TAC_chunks cols index chunk_size (some num_voxel))
          S thresh write_paras model_0_prob_thres (index - 3) with
      | Except.error e => Except.error e
      | Except.ok r =>
        match runChunks M par_mat cols S thresh model_0_prob_thres write_paras
            num_voxel chunk_size iters (index + chunk_size) with
        | Except.error e => Except.error e
        | Except.ok rs => Except.ok (r :: rs)

/-- Result of one whole `vABC` run: whether the output files were
initialized (`output_file_init`), and the per-chunk output dataframes in
emission order. -/
structure RunResult where
  filesCreated : Bool
  chunkOutputs : List (Option (List ParaOutRow) × List ModelOutRow)
deriving Repr, DecidableEq

/-- Shallow embedding of `vABC`.  The error value carries whether the
output files had already been created when the failure was raised:
`extract_values` runs before `output_file_init`, the chunk loop after it.
The per-chunk `output_dataframe`/write of the source is applied to each
successful chunk result; partially written output before a chunk failure
is not modeled. -/
def vABC_model (expQ : ℚ → ℚ) (num_voxel : Option ℕ) (cols : List (List ℚ))
    (par_mat : List ParRow) (S : ℕ) (thresh model_0_prob_thres : ℚ)
    (write_paras : Bool) (chunk_size : ℕ) : Except (String × Bool) RunResult :=
  match extract_values cols with
  | Except.error e => Except.error (e, false)
  | Except.ok (time_frame_size, Cb, Ti) =>
    let Ca := Cb
    let M := generate_FDG_models expQ time_frame_size Cb Ca Ti par_mat
    let df_column_size := cols.length
    let nv := resolveNumVoxel num_voxel df_column_size
    match runChunks M par_mat cols S thresh model_0_prob_thres write_paras
        nv chunk_size (List.range (totalIterations nv df_column_size chunk_size)) 3 with
    | Except.error e => Except.error (e, true)
    | Except.ok rs =>
      Except.ok ⟨true, rs.map (fun r => output_dataframe r.paraRows r.modelP write_paras)⟩

/-- The in-place structural constraint `alpha1[model == 0] = 0` of `main`,
as the post-state of the `alpha1` vector. -/
def applyModelConstraint (alpha1 model : List ℚ) : List ℚ :=
  List.zipWith (fun a m => if m = 0 then 0 else a) alpha1 model

/-- `par_mat = cp.column_stack((Vb, alpha1, alpha2, theta1, theta2, model))`
(all six prior vectors have length `S`). -/
def buildParMat (Vb alpha1 alpha2 theta1 theta2 model : List ℚ) : List ParRow :=
  (List.range Vb.length).map (fun i =>
    ⟨Vb.getD i 0, alpha1.getD i 0, alpha2.getD i 0, theta1.getD i 0,
     theta2.getD i 0, model.getD i 0⟩)

/-- Run configuration of `main` (paths excluded: file placement is out of
scope, the emitted records are in `RunResult`). -/
structure Config where
  seed : ℕ
  S : ℕ
  thresh : ℚ
  model_0_prob_thres : ℚ
  num_voxel : Option ℕ
  write_paras : Bool
  chunk_size : ℕ
  cols : List (List ℚ)

/-- Big-step run relation of `main`: draw the prior matrix from the seeded
generator, then run the `vABC` pipeline on it.  `gen` abstracts the seeded
`cupy.random` draws (after `cp.random.seed(seed)`, a deterministic
function of the seed and `S`), `expQ` the machine exponential. -/
inductive Run (gen : ℕ → ℕ → List ParRow) (expQ : ℚ → ℚ) :
    Config → Except (String × Bool) RunResult → Prop
  | step : ∀ (cfg : Config) (pm : List ParRow)
      (out : Except (String × Bool) RunResult),
      pm = gen cfg.seed cfg.S →
      out = vABC_model expQ cfg.num_voxel cfg.cols pm cfg.S cfg.thresh
              cfg.model_0_prob_thres cfg.write_paras cfg.chunk_size →
      Run gen expQ cfg out

/-! ### Spec-side definitions

These follow the spec's wording, to be compared with the source-side
definitions above. -/

/-- Spec-side distance: `distance(v,s) = Σ_t |PredictedTAC(s,t) − Observed(v,t)|`
(L1 over time), indexed over the time frames of the observed chunk. -/
def distSpec (M Ct : List (List ℚ)) (v s : ℕ) : ℚ :=
  ∑ t ∈ Finset.range Ct.length, |(M.getD s []).getD t 0 - (Ct.getD t []).getD v 0|

/-- Spec-side forward model value:
`Ct(t) = [(θ1·e^(-α1·Ti) + θ2·e^(-α2·Ti)) ⊛ Ca](t) · frame_duration(t) + Vb·Cb(t)`
with `⊛` the discrete linear convolution truncated to the observed grid. -/
def CtSpec (expQ : ℚ → ℚ) (tfs Cb Ca Ti : List ℚ) (p : ParRow) (t : ℕ) : ℚ :=
  (∑ k ∈ Finset.range (t + 1),
      (p.t1 * expQ (-(p.a1 * Ti.getD k 0)) + p.t2 * expQ (-(p.a2 * Ti.getD k 0)))
        * Ca.getD (t - k) 0)
    * tfs.getD t 0 + p.Vb * Cb.getD t 0

/-- Spec-side kinetic transform: `K1 = (θ1+θ2)/(1−Vb)`. -/
def K1spec (p : ParRow) : ℚ := (p.t1 + p.t2) / (1 - p.Vb)

/-- Spec-side kinetic transform: `k2 = (θ1·α1+θ2·α2)/(θ1+θ2)`. -/
def k2spec (p : ParRow) : ℚ := (p.t1 * p.a1 + p.t2 * p.a2) / (p.t1 + p.t2)

/-- Spec-side kinetic transform: `k4 = α1·α2/k2`. -/
def k4spec (p : ParRow) : ℚ := p.a1 * p.a2 / k2spec p

/-- Spec-side kinetic transform: `k3 = α1+α2−k2−k4`. -/
def k3spec (p : ParRow) : ℚ := p.a1 + p.a2 - k2spec p - k4spec p

/-- Spec-side kinetic transform: `Ki = K1·k3/(k2+k3)`. -/
def KiSpec (p : ParRow) : ℚ := K1spec p * k3spec p / (k2spec p + k3spec p)

/-! ### Auxiliary list lemmas -/

theorem getD_map_of_lt {α β : Type} (f : α → β) (l : List α) (i : ℕ) (d : β) (e : α)
    (h : i < l.length) : (l.map f).getD i d = f (l.getD i e) := by
  induction l generalizing i with
  | nil => simp at h
  | cons x xs ih =>
    cases i with
    | zero => rfl
    | succ n =>
      simp only [List.map_cons, List.getD_cons_succ]
      exact ih n (by simpa using h)

theorem getD_zipWith_of_lt {α β γ : Type} (f : α → β → γ) (xs : List α) (ys : List β)
    (i : ℕ) (d : γ) (dx : α) (dy : β) (hx : i < xs.length) (hy : i < ys.length) :
    (List.zipWith f xs ys).getD i d = f (xs.getD i dx) (ys.getD i dy) := by
  induction xs generalizing ys i with
  | nil => simp at hx
  | cons x xs ih =>
    cases ys with
    | nil => simp at hy
    | cons y ys =>
      cases i with
      | zero => rfl
      | succ n =>
        simp only [List.zipWith_cons_cons, List.getD_cons_succ]
        exact ih ys n (by simpa using hx) (by simpa using hy)

theorem getD_range_of_lt (n i d : ℕ) (h : i < n) : (List.range n).getD i d = i := by
  rw [List.getD_eq_getElem _ _ (by simpa using h)]
  simp

theorem getD_mem_of_lt {α : Type} (l : List α) (i : ℕ) (d : α) (h : i < l.length) :
    l.getD i d ∈ l := by
  rw [List.getD_eq_getElem _ _ h]
  exact List.getElem_mem h

/-- The L1 distance of two length-`n` series is the indexed sum of
absolute differences. -/
theorem l1dist_eq_sum (n : ℕ) (xs ys : List ℚ) (hx : xs.length = n) (hy : ys.length = n) :
    l1dist xs ys = ∑ t ∈ Finset.range n, |xs.getD t 0 - ys.getD t 0| := by
  induction n generalizing xs ys with
  | zero =>
    rw [List.length_eq_zero] at hx hy
    subst hx; subst hy
    simp [l1dist]
  | succ k ih =>
    cases xs with
    | nil => simp at hx
    | cons x xs =>
      cases ys with
      | nil => simp at hy
      | cons y ys =>
        have hx' : xs.length = k := by simpa using hx
        have hy' : ys.length = k := by simpa using hy
        rw [Finset.sum_range_succ']
        have hhead : l1dist (x :: xs) (y :: ys) = |x - y| + l1dist xs ys := by
          simp [l1dist, add_comm]
        rw [hhead, ih xs ys hx' hy']
        simp [add_comm]

theorem length_flatten_of_const {α : Type} (ls : List (List α)) (k : ℕ)
    (h : ∀ l ∈ ls, l.length = k) : ls.flatten.length = ls.length * k := by
  induction ls with
  | nil => simp
  | cons l rest ih =>
    have hl : l.length = k := h l (by simp)
    have hrest := ih (fun x hx => h x (by simp [hx]))
    simp [List.flatten_cons, hl, hrest, Nat.succ_mul, Nat.add_comm]

/-- Slicing a flattening of equal-length blocks recovers the blocks. -/
theorem flatten_drop_take {α : Type} (k : ℕ) (ls : List (List α)) (v : ℕ)
    (h : ∀ l ∈ ls, l.length = k) (hv : v < ls.length) :
    ((ls.flatten.drop (v * k)).take k) = ls.getD v [] := by
  induction ls generalizing v with
  | nil => simp at hv
  | cons l rest ih =>
    have hl : l.length = k := h l (by simp)
    cases v with
    | zero =>
      simp only [Nat.zero_mul, List.drop_zero, List.flatten_cons, List.getD_cons_zero]
      rw [← hl, List.take_left]
    | succ v =>
      simp only [List.flatten_cons, List.getD_cons_succ]
      have harith : (v + 1) * k = l.length + v * k := by rw [hl]; ring
      rw [harith, ← List.drop_drop, List.drop_left]
      exact ih v (fun x hx => h x (by simp [hx])) (by simpa using hv)

/-- Mask selection keeps exactly the `true` positions'
count when the mask is not longer than the row list. -/
theorem length_selectRows (m : List Bool) (rows : List ParRow)
    (h : m.length ≤ rows.length) : (selectRows m rows).length = countTrue m := by
  induction m generalizing rows with
  | nil => simp [selectRows, countTrue]
  | cons b bs ih =>
    cases rows with
    | nil => simp at h
    | cons r rs =>
      have h' : bs.length ≤ rs.length := by simpa using h
      cases b with
      | true => simp [selectRows, countTrue, List.filter] at *; simpa [selectRows, countTrue] using ih rs h'
      | false => simp [selectRows, countTrue, List.filter] at *; simpa [selectRows, countTrue] using ih rs h'

theorem getD_take_of_lt {α : Type} (l : List α) (n i : ℕ) (d : α) (hi : i < n) :
    (l.take n).getD i d = l.getD i d := by
  induction l generalizing n i with
  | nil => simp
  | cons x xs ih =>
    cases n with
    | zero => omega
    | succ n =>
      cases i with
      | zero => simp
      | succ i =>
        simp only [List.take_succ_cons, List.getD_cons_succ]
        exact ih n i (by omega)

theorem length_errorsMatrix (M Ct : List (List ℚ)) :
    (errorsMatrix M Ct).length = numVox Ct := by
  simp [errorsMatrix, transposeCols]

theorem length_maskOf (M Ct : List (List ℚ)) (thresh : ℚ) :
    (maskOf M Ct thresh).length = numVox Ct := by
  simp [maskOf, acceptMask, thresholds, length_errorsMatrix]

theorem transposeCols_getD (Ct : List (List ℚ)) (v : ℕ) (hv : v < numVox Ct) :
    (transposeCols Ct).getD v [] = Ct.map (fun row => row.getD v 0) := by
  unfold transposeCols
  rw [getD_map_of_lt _ _ v [] 0 (by simpa using hv)]
  rw [getD_range_of_lt _ _ _ hv]

theorem errorsMatrix_getD (M Ct : List (List ℚ)) (v : ℕ) (hv : v < numVox Ct) :
    (errorsMatrix M Ct).getD v [] =
      M.map (fun m => l1dist m (Ct.map (fun row => row.getD v 0))) := by
  unfold errorsMatrix
  rw [getD_map_of_lt _ _ v [] [] (by simpa [transposeCols] using hv)]
  rw [transposeCols_getD Ct v hv]

theorem errorsMatrix_row_length (M Ct : List (List ℚ)) (v : ℕ) (hv : v < numVox Ct) :
    ((errorsMatrix M Ct).getD v []).length = M.length := by
  rw [errorsMatrix_getD M Ct v hv]
  simp

theorem thresholds_getD (thresh : ℚ) (errors : List (List ℚ)) (v : ℕ)
    (hv : v < errors.length) :
    (thresholds thresh errors).getD v 0 = quantile thresh (errors.getD v []) := by
  unfold thresholds
  rw [getD_map_of_lt _ _ v 0 [] hv]

theorem maskOf_getD (M Ct : List (List ℚ)) (thresh : ℚ) (v : ℕ) (hv : v < numVox Ct) :
    (maskOf M Ct thresh).getD v [] =
      ((errorsMatrix M Ct).getD v []).map
        (fun d => decide (d ≤ quantile thresh ((errorsMatrix M Ct).getD v []))) := by
  unfold maskOf acceptMask
  rw [getD_zipWith_of_lt _ _ _ v [] [] 0
    (by rw [length_errorsMatrix]; exact hv)
    (by simp only [thresholds, List.length_map, length_errorsMatrix]; exact hv)]
  rw [thresholds_getD thresh _ v (by rw [length_errorsMatrix]; exact hv)]

theorem maskOf_entry (M Ct : List (List ℚ)) (thresh : ℚ) (v s : ℕ)
    (hv : v < numVox Ct) (hs : s < M.length) :
    ((maskOf M Ct thresh).getD v []).getD s false =
      decide (((errorsMatrix M Ct).getD v []).getD s 0 ≤
        quantile thresh ((errorsMatrix M Ct).getD v [])) := by
  rw [maskOf_getD M Ct thresh v hv]
  rw [getD_map_of_lt _ _ s false 0 (by rw [errorsMatrix_row_length M Ct v hv]; exact hs)]

theorem FP.add_fin_fin (a b : ℚ) : FP.add (FP.fin a) (FP.fin b) = FP.fin (a + b) := rfl

theorem FP.mul_fin_fin (a b : ℚ) : FP.mul (FP.fin a) (FP.fin b) = FP.fin (a * b) := rfl

theorem FP.sub_fin_fin (a b : ℚ) : FP.sub (FP.fin a) (FP.fin b) = FP.fin (a - b) := by
  simp [FP.sub, FP.add, FP.neg, sub_eq_add_neg]

theorem FP.div_fin_fin (a b : ℚ) (hb : b ≠ 0) :
    FP.div (FP.fin a) (FP.fin b) = FP.fin (a / b) := by
  simp [FP.div, hb]

theorem FP.div_fin_zero_not_finite (a : ℚ) :
    (FP.div (FP.fin a) (FP.fin 0)).isFinite = false := by
  simp only [FP.div]
  split_ifs <;> rfl

/-! ### Claim theorems -/

/-- C1: for every voxel `v` and prior draw `s` of a chunk, the acceptance
engine's distance entry is the L1 sum over time frames of the absolute
difference between the predicted TAC of draw `s` and the observed TAC of
voxel `v`; the per-voxel threshold is the `thresh`-quantile (linear
interpolation between ranks) of the voxel's distances; and the acceptance
mask holds exactly for the draws whose distance is at most the threshold. -/
theorem C1_distance_quantile_acceptance (M Ct : List (List ℚ)) (thresh : ℚ)
    (v s : ℕ) (hv : v < numVox Ct) (hs : s < M.length)
    (hM : ∀ m ∈ M, m.length = Ct.length) :
    ((errorsMatrix M Ct).getD v []).getD s 0 = distSpec M Ct v s ∧
    (thresholds thresh (errorsMatrix M Ct)).getD v 0 =
      quantile thresh ((errorsMatrix M Ct).getD v []) ∧
    (((maskOf M Ct thresh).getD v []).getD s false = true ↔
      distSpec M Ct v s ≤ quantile thresh ((errorsMatrix M Ct).getD v [])) := by
  have herr : ((errorsMatrix M Ct).getD v []).getD s 0 = distSpec M Ct v s := by
    rw [errorsMatrix_getD M Ct v hv]
    rw [getD_map_of_lt _ _ s 0 [] hs]
    rw [l1dist_eq_sum Ct.length (M.getD s []) (Ct.map (fun row => row.getD v 0))
      (hM _ (getD_mem_of_lt M s [] hs)) (by simp)]
    unfold distSpec
    refine Finset.sum_congr rfl (fun t ht => ?_)
    rw [getD_map_of_lt _ _ t 0 [] (Finset.mem_range.mp ht)]
  refine ⟨herr, thresholds_getD thresh _ v (by rw [length_errorsMatrix]; exact hv), ?_⟩
  rw [maskOf_entry M Ct thresh v s hv hs, herr]
  exact decide_eq_true_iff

/-- C1 witness: the acceptance characterization evaluated on a concrete
two-draw, two-voxel, two-frame chunk. -/
theorem C1_witness :
    ((errorsMatrix [[0,0],[0,2]] [[0,1],[1,1]]).getD 0 []).getD 1 0 =
      distSpec [[0,0],[0,2]] [[0,1],[1,1]] 0 1 ∧
    (thresholds (1/2) (errorsMatrix [[0,0],[0,2]] [[0,1],[1,1]])).getD 0 0 =
      quantile (1/2) ((errorsMatrix [[0,0],[0,2]] [[0,1],[1,1]]).getD 0 []) ∧
    (((maskOf [[0,0],[0,2]] [[0,1],[1,1]] (1/2)).getD 0 []).getD 1 false = true ↔
      distSpec [[0,0],[0,2]] [[0,1],[1,1]] 0 1 ≤
        quantile (1/2) ((errorsMatrix [[0,0],[0,2]] [[0,1],[1,1]]).getD 0 [])) :=
  C1_distance_quantile_acceptance [[0,0],[0,2]] [[0,1],[1,1]] (1/2) 0 1
    (by norm_num [numVox]) (by norm_num) (by simp)

/-- C2 counterexample: a three-voxel chunk (thresh = 0, three prior draws)
whose per-voxel accepted counts are 2, 1 and 3.  At least two voxels have
different accepted-set sizes, yet `calculate_results` returns results
instead of raising: the counts compensate (2+1+3 = 3·2), the reshape
succeeds, and the returned posterior assigns voxel 1 two rows (its
accepted set has exactly one row — the second row belongs to voxel 2)
and truncates voxel 2 (accepted set of three rows, two emitted). -/
theorem C2_counterexample :
    countTrue ((maskOf [[0,0],[0,2],[2,0]] [[0,0,1],[1,0,1]] 0).getD 0 []) = 2 ∧
    countTrue ((maskOf [[0,0],[0,2],[2,0]] [[0,0,1],[1,0,1]] 0).getD 1 []) = 1 ∧
    (selectRows ((maskOf [[0,0],[0,2],[2,0]] [[0,0,1],[1,0,1]] 0).getD 1 [])
      [⟨0,0,0,0,0,0⟩, ⟨1,1,1,1,1,1⟩, ⟨2,2,2,2,2,2⟩]).length = 1 ∧
    (selectRows ((maskOf [[0,0],[0,2],[2,0]] [[0,0,1],[1,0,1]] 0).getD 2 [])
      [⟨0,0,0,0,0,0⟩, ⟨1,1,1,1,1,1⟩, ⟨2,2,2,2,2,2⟩]).length = 3 ∧
    calculate_results [[0,0],[0,2],[2,0]]
      [⟨0,0,0,0,0,0⟩, ⟨1,1,1,1,1,1⟩, ⟨2,2,2,2,2,2⟩]
      [[0,0,1],[1,0,1]] 3 0 true (1/2) 0 =
      Except.ok ⟨some [(0, ⟨0,0,0,0,0,0⟩), (0, ⟨1,1,1,1,1,1⟩),
                       (1, ⟨0,0,0,0,0,0⟩), (1, ⟨0,0,0,0,0,0⟩),
                       (2, ⟨1,1,1,1,1,1⟩), (2, ⟨2,2,2,2,2,2⟩)],
                 [[0, 0, 1/2], [1, 0, 1], [2, 1, 0]]⟩ := by
  refine ⟨?_, ?_, ?_, ?_, ?_⟩ <;>
    norm_num [calculate_results, maskOf, errorsMatrix, transposeCols, numVox, l1dist,
      thresholds, quantile, sortList, insertSorted, acceptMask, countTrue, flatOf,
      acceptedSizeOf, flatAccepted, selectRows, groupAt, countZeros, p0Of, List.filter,
      List.zip, List.zipWith, List.range_succ, List.getD]

/-- C2 amended: the acceptance computation raises a failure if and only if
the flattened masked selection does not have exactly
`num_vox * accepted_size` rows, where `accepted_size` is voxel 0's
accepted count.  Differing per-voxel accepted counts do not by themselves
raise: when the counts compensate so the total still equals
`num_vox * accepted_size`, the reshape succeeds and the posterior is
returned with draws silently padded, truncated, or assigned to the wrong
voxel. -/
theorem C2_amended_failure_condition (M Ct : List (List ℚ)) (par_mat : List ParRow)
    (S : ℕ) (thresh model_0_prob_thres : ℚ) (write_paras : Bool) (vox_num_start : ℕ)
    (hnv : 0 < numVox Ct) :
    (∃ e, calculate_results M par_mat Ct S thresh write_paras model_0_prob_thres
        vox_num_start = Except.error e) ↔
      (flatOf M Ct thresh par_mat).length ≠ numVox Ct * acceptedSizeOf M Ct thresh := by
  rcases hmask : (maskOf M Ct thresh).head? with _ | row0
  · exfalso
    rw [List.head?_eq_none_iff] at hmask
    have := length_maskOf M Ct thresh
    rw [hmask] at this
    simp at this
    omega
  · simp only [calculate_results, hmask]
    split_ifs with hc
    · simp [hc]
    · simp [hc]

/-- C2 amended witness: with no prior rows and one voxel with a nonempty
mask, the selection is empty while `num_vox * accepted_size = 1`, so the
failure condition holds and the computation errors. -/
theorem C2_amended_witness :
    (∃ e, calculate_results [[0]] [] [[5]] 1 0 true (1/2) 0 = Except.error e) ↔
      (flatOf [[0]] [[5]] 0 []).length ≠ numVox [[5]] * acceptedSizeOf [[0]] [[5]] 0 :=
  C2_amended_failure_condition [[0]] [[5]] [] 1 0 (1/2) true 0 (by norm_num [numVox])

/-- C6: after the structural constraint assignment
`alpha1[model == 0] = 0`, every draw whose model indicator is 0 has
`alpha1 = 0`, and the `par_mat` row built from the constrained vector
carries `alpha1 = 0` as well. -/
theorem C6_structural_prior_constraint
    (Vb alpha1 alpha2 theta1 theta2 model : List ℚ) (i : ℕ)
    (hi1 : i < alpha1.length) (hi2 : i < model.length)
    (hm : model.getD i 0 = 0) :
    (applyModelConstraint alpha1 model).getD i 0 = 0 ∧
    (i < Vb.length →
      ((buildParMat Vb (applyModelConstraint alpha1 model) alpha2 theta1 theta2
        model).getD i ⟨0,0,0,0,0,0⟩).a1 = 0) := by
  have hconstr : (applyModelConstraint alpha1 model).getD i 0 = 0 := by
    unfold applyModelConstraint
    rw [getD_zipWith_of_lt _ _ _ i 0 0 0 hi1 hi2, hm]
    simp
  refine ⟨hconstr, fun hVb => ?_⟩
  unfold buildParMat
  simp only [List.getD_eq_getElem?_getD, List.getElem?_map, List.getElem?_range hVb,
    Option.map_some', Option.getD_some]
  simpa [List.getD_eq_getElem?_getD] using hconstr

/-- C6 witness: the constraint evaluated on a concrete two-draw prior whose
first draw has model indicator 0. -/
theorem C6_witness :
    (applyModelConstraint [3, 4] [0, 1]).getD 0 0 = 0 ∧
    (0 < ([5] : List ℚ).length →
      ((buildParMat [5] (applyModelConstraint [3, 4] [0, 1]) [6, 7] [8, 9]
        [10, 11] [0, 1]).getD 0 ⟨0,0,0,0,0,0⟩).a1 = 0) :=
  C6_structural_prior_constraint [5] [3, 4] [6, 7] [8, 9] [10, 11] [0, 1] 0
    (by norm_num) (by norm_num) (by simp)

/-- C7: on a table with 7 voxel columns (10 columns in total) and
`chunk_size = 3`, the streaming loop emits exactly 3 chunks whose model
records cover 3, 3 and 1 voxels respectively, and the last chunk's
`Voxel_No` values start and end at 6 (0-indexed).  The run uses a
one-draw prior (`S = 1`), so every per-voxel distance list is nonempty
and the quantile is evaluated only where `cp.quantile` is defined. -/
theorem C7_chunk_boundaries :
    (vABC_model (fun _ => 1) none (List.replicate 10 [0]) [⟨0, 0, 0, 0, 0, 0⟩]
        1 0 (1/2) false 3).toOption.map
        (fun r => (r.filesCreated, r.chunkOutputs.map (fun c => c.2.map (fun m => m.voxNo)))) =
      some (true, [[0, 1, 2], [3, 4, 5], [6]]) := by
  norm_num [vABC_model, extract_values, generate_FDG_models, generate_FDG_model,
    cumconv, convolveFull, convEntry, fdgKernel, resolveNumVoxel,
    totalIterations, runChunks, extract_TAC_chunks, calculate_results, maskOf,
    errorsMatrix, transposeCols, numVox, l1dist, thresholds, quantile, sortList,
    insertSorted, acceptMask, countTrue, flatOf, acceptedSizeOf, flatAccepted,
    selectRows, groupAt, countZeros, p0Of, output_dataframe, output_dataframe_model,
    modelTransformRow, modelLabel, Except.toOption, List.replicate, List.filter,
    List.zip, List.zipWith, List.range_succ, List.getD,
    Finset.sum_range_succ, Finset.sum_range_zero]

/-- C8 counterexample: a table with the 3 metadata columns and no voxel
columns is malformed per the claim, but the run does not fail: the output
files are initialized (`filesCreated = true`) and the pipeline completes
with zero emitted records. -/
theorem C8_counterexample :
    vABC_model (fun _ => 1) none [[1], [2], [3]] [] 0 0 (1/2) false 3 =
      Except.ok ⟨true, []⟩ := by
  norm_num [vABC_model, extract_values, generate_FDG_models, resolveNumVoxel,
    totalIterations, runChunks]

/-- C8 amended: a table with fewer than 3 metadata columns fails fatally
(the IndexError of `extract_values`) before any output file is created
(the `false` flag), but a table with exactly the 3 metadata columns and no
voxel columns does not fail: the output files are initialized and the run
completes emitting zero records. -/
theorem C8_amended_malformed_table (expQ : ℚ → ℚ) (num_voxel : Option ℕ)
    (cols : List (List ℚ)) (par_mat : List ParRow) (S : ℕ)
    (thresh model_0_prob_thres : ℚ) (write_paras : Bool) (chunk_size : ℕ) :
    (cols.length < 3 →
      vABC_model expQ num_voxel cols par_mat S thresh model_0_prob_thres
        write_paras chunk_size =
        Except.error ("IndexError: single positional indexer is out-of-bounds", false)) ∧
    (cols.length = 3 →
      vABC_model expQ num_voxel cols par_mat S thresh model_0_prob_thres
        write_paras chunk_size = Except.ok ⟨true, []⟩) := by
  constructor
  · intro hlt
    rcases cols with _ | ⟨c0, _ | ⟨c1, _ | ⟨c2, rest⟩⟩⟩
    · rfl
    · rfl
    · rfl
    · simp at hlt; omega
  · intro heq
    rcases cols with _ | ⟨c0, _ | ⟨c1, _ | ⟨c2, rest⟩⟩⟩
    · simp at heq
    · simp at heq
    · simp at heq
    · have hrest : rest = [] := by
        rw [← List.length_eq_zero]
        simpa using heq
      subst hrest
      cases num_voxel <;>
        simp [vABC_model, extract_values, resolveNumVoxel, totalIterations, runChunks]

/-- C8 amended witness: the two branches evaluated on a two-column table
and on a three-column table. -/
theorem C8_amended_witness :
    vABC_model (fun _ => 1) none [[1], [2]] [] 0 0 (1/2) false 3 =
      Except.error ("IndexError: single positional indexer is out-of-bounds", false) ∧
    vABC_model (fun _ => 1) none [[4], [5], [6]] [] 0 0 (1/2) false 3 =
      Except.ok ⟨true, []⟩ :=
  ⟨(C8_amended_malformed_table (fun _ => 1) none [[1], [2]] [] 0 0 (1/2) false 3).1
      (by norm_num),
   (C8_amended_malformed_table (fun _ => 1) none [[4], [5], [6]] [] 0 0 (1/2) false 3).2
      (by norm_num)⟩

/-- C4: the posterior aggregator's kinetic transform computes exactly
`K1 = (θ1+θ2)/(1−Vb)`, `k2 = (θ1·α1+θ2·α2)/(θ1+θ2)`, `k4 = α1·α2/k2`,
`k3 = α1+α2−k2−k4`, `Ki = K1·k3/(k2+k3)` whenever the denominators are
nonzero; when `θ1+θ2 = 0` the `k_2` entry of the output row is the
non-finite division result written unmodified (and the row is still
produced, with its voxel number and label intact, no error raised); when
`k2+k3 = 0` the `K_i` entry is non-finite. -/
theorem C4_kinetic_transform (vox : ℚ) (p : ParRow) :
    (p.t1 + p.t2 ≠ 0 → 1 - p.Vb ≠ 0 → k2spec p ≠ 0 → k2spec p + k3spec p ≠ 0 →
      paraTransformRow (vox, p) =
        ⟨vox, FP.fin p.Vb, FP.fin (K1spec p), FP.fin (k2spec p), FP.fin (k3spec p),
         FP.fin (k4spec p), FP.fin (KiSpec p), modelLabel p.model⟩) ∧
    (p.t1 + p.t2 = 0 →
      (paraTransformRow (vox, p)).k2.isFinite = false ∧
      (paraTransformRow (vox, p)).voxNo = vox ∧
      (paraTransformRow (vox, p)).model = modelLabel p.model) ∧
    (p.t1 + p.t2 ≠ 0 → 1 - p.Vb ≠ 0 → k2spec p ≠ 0 → k2spec p + k3spec p = 0 →
      (paraTransformRow (vox, p)).Ki.isFinite = false) := by
  refine ⟨?_, ?_, ?_⟩
  · intro h1 h2 h3 h4
    simp only [KiSpec, K1spec, k3spec, k4spec, k2spec] at h3 h4 ⊢
    simp only [paraTransformRow, FP.add_fin_fin, FP.mul_fin_fin, FP.sub_fin_fin]
    rw [FP.div_fin_fin _ _ h1, FP.div_fin_fin _ _ h2]
    simp only [FP.add_fin_fin, FP.mul_fin_fin, FP.sub_fin_fin]
    rw [FP.div_fin_fin _ _ h3]
    simp only [FP.add_fin_fin, FP.mul_fin_fin, FP.sub_fin_fin]
    rw [FP.div_fin_fin _ _ h4]
  · intro h1
    refine ⟨?_, rfl, rfl⟩
    simp only [paraTransformRow, FP.add_fin_fin, FP.mul_fin_fin]
    rw [h1]
    exact FP.div_fin_zero_not_finite _
  · intro h1 h2 h3 h4
    simp only [k3spec, k4spec, k2spec] at h3 h4
    simp only [paraTransformRow, FP.add_fin_fin, FP.mul_fin_fin, FP.sub_fin_fin]
    rw [FP.div_fin_fin _ _ h1, FP.div_fin_fin _ _ h2]
    simp only [FP.add_fin_fin, FP.mul_fin_fin, FP.sub_fin_fin]
    rw [FP.div_fin_fin _ _ h3]
    simp only [FP.add_fin_fin, FP.mul_fin_fin, FP.sub_fin_fin]
    rw [h4]
    exact FP.div_fin_zero_not_finite _

/-- Dissection of a successful `calculate_results` call: the returned
record's fields, and the reshape condition that must have held. -/
theorem calculate_results_ok (M : List (List ℚ)) (par_mat : List ParRow)
    (Ct : List (List ℚ)) (S : ℕ) (thresh model_0_prob_thres : ℚ)
    (write_paras : Bool) (vs : ℕ) (r : CalcResult)
    (hok : calculate_results M par_mat Ct S thresh write_paras model_0_prob_thres vs =
      Except.ok r) :
    r.modelP = (List.range (numVox Ct)).map (fun v =>
      [((vs + v : ℕ) : ℚ),
       if p0Of M Ct thresh par_mat v < model_0_prob_thres then (1 : ℚ) else 0,
       p0Of M Ct thresh par_mat v]) ∧
    r.paraRows = (if write_paras then
      some (((List.range (numVox Ct)).map (fun v =>
        (groupAt (flatOf M Ct thresh par_mat) (acceptedSizeOf M Ct thresh) v).map
          (fun row => (((vs + v : ℕ) : ℚ), row)))).flatten)
      else none) ∧
    (flatOf M Ct thresh par_mat).length = numVox Ct * acceptedSizeOf M Ct thresh := by
  rcases hhead : (maskOf M Ct thresh).head? with _ | row0
  · simp only [calculate_results, hhead] at hok
    exact absurd hok (by simp)
  · simp only [calculate_results, hhead] at hok
    by_cases hc : (flatOf M Ct thresh par_mat).length = numVox Ct * acceptedSizeOf M Ct thresh
    · rw [if_pos hc] at hok
      injection hok with h
      subst h
      exact ⟨rfl, rfl, hc⟩
    · rw [if_neg hc] at hok
      exact absurd hok (by simp)

/-- C5: for every voxel of a successful chunk, with `p0` the fraction of its
accepted draws having model 0, the emitted `model_p` row is
`[Voxel_No, label, p0]` with label 1 ("k4 non-zero") exactly when
`p0 < model_0_prob_thres` and 0 ("k4 zero") otherwise; the output
dataframe reports the probability of the assigned label (`1 - p0` for
"k4 non-zero", `p0` for "k4 zero"); and when `model_0_prob_thres = 1/2`
the reported probability is at least `1/2`. -/
theorem C5_model_posterior (M : List (List ℚ)) (par_mat : List ParRow)
    (Ct : List (List ℚ)) (S : ℕ) (thresh model_0_prob_thres : ℚ)
    (write_paras : Bool) (vs : ℕ) (r : CalcResult) (v : ℕ)
    (hok : calculate_results M par_mat Ct S thresh write_paras model_0_prob_thres vs =
      Except.ok r)
    (hv : v < numVox Ct) (hasz : 0 < acceptedSizeOf M Ct thresh) :
    r.modelP.getD v [] =
      [((vs + v : ℕ) : ℚ),
       if p0Of M Ct thresh par_mat v < model_0_prob_thres then 1 else 0,
       p0Of M Ct thresh par_mat v] ∧
    (output_dataframe_model r.modelP).getD v ⟨0, "", 0⟩ =
      ⟨((vs + v : ℕ) : ℚ),
       if p0Of M Ct thresh par_mat v < model_0_prob_thres then "k4 non-zero" else "k4 zero",
       if p0Of M Ct thresh par_mat v < model_0_prob_thres then 1 - p0Of M Ct thresh par_mat v
       else p0Of M Ct thresh par_mat v⟩ ∧
    (model_0_prob_thres = 1/2 →
      1/2 ≤ ((output_dataframe_model r.modelP).getD v ⟨0, "", 0⟩).prob) := by
  obtain ⟨hmp, -, -⟩ :=
    calculate_results_ok M par_mat Ct S thresh model_0_prob_thres write_paras vs r hok
  have hfirst : r.modelP.getD v [] =
      [((vs + v : ℕ) : ℚ),
       if p0Of M Ct thresh par_mat v < model_0_prob_thres then 1 else 0,
       p0Of M Ct thresh par_mat v] := by
    rw [hmp]
    rw [getD_map_of_lt _ (List.range (numVox Ct)) v [] 0 (by simpa using hv)]
    rw [getD_range_of_lt _ _ _ hv]
  have hrow : (output_dataframe_model r.modelP).getD v ⟨0, "", 0⟩ =
      ⟨((vs + v : ℕ) : ℚ),
       if p0Of M Ct thresh par_mat v < model_0_prob_thres then "k4 non-zero" else "k4 zero",
       if p0Of M Ct thresh par_mat v < model_0_prob_thres then 1 - p0Of M Ct thresh par_mat v
       else p0Of M Ct thresh par_mat v⟩ := by
    rw [hmp]
    simp only [output_dataframe_model, List.map_map]
    rw [getD_map_of_lt _ (List.range (numVox Ct)) v (⟨0, "", 0⟩ : ModelOutRow) 0
      (by simpa using hv)]
    rw [getD_range_of_lt _ _ _ hv]
    by_cases hp : p0Of M Ct thresh par_mat v < model_0_prob_thres <;>
      simp [Function.comp, modelTransformRow, modelLabel, List.getD, hp]
  refine ⟨hfirst, hrow, fun hmt => ?_⟩
  subst hmt
  rw [hrow]
  dsimp only
  have hp0 : 0 ≤ p0Of M Ct thresh par_mat v := by
    unfold p0Of
    positivity
  have hp1 : p0Of M Ct thresh par_mat v ≤ 1 := by
    unfold p0Of
    rw [div_le_one (by exact_mod_cast hasz)]
    have hle : countZeros (groupAt (flatOf M Ct thresh par_mat)
        (acceptedSizeOf M Ct thresh) v) ≤ acceptedSizeOf M Ct thresh := by
      refine le_trans (List.length_filter_le _ _) ?_
      unfold groupAt
      exact List.length_take_le _ _
    exact_mod_cast hle
  by_cases hp : p0Of M Ct thresh par_mat v < 1/2
  · rw [if_pos hp]
    linarith
  · rw [if_neg hp]
    exact not_lt.mp hp

/-- C5 witness: the model posterior evaluated on a concrete one-voxel
chunk with two prior draws, one accepted, with model indicator 0. -/
theorem C5_witness :
    ((⟨none, [[0, 0, 1]]⟩ : CalcResult).modelP.getD 0 [] =
      [((0 + 0 : ℕ) : ℚ),
       if p0Of [[0],[2]] [[0]] 0 [⟨0,0,0,0,0,0⟩, ⟨1,1,1,1,1,1⟩] 0 < 1/2 then 1 else 0,
       p0Of [[0],[2]] [[0]] 0 [⟨0,0,0,0,0,0⟩, ⟨1,1,1,1,1,1⟩] 0]) ∧
    ((output_dataframe_model (⟨none, [[0, 0, 1]]⟩ : CalcResult).modelP).getD 0 ⟨0, "", 0⟩ =
      ⟨((0 + 0 : ℕ) : ℚ),
       if p0Of [[0],[2]] [[0]] 0 [⟨0,0,0,0,0,0⟩, ⟨1,1,1,1,1,1⟩] 0 < 1/2 then "k4 non-zero"
       else "k4 zero",
       if p0Of [[0],[2]] [[0]] 0 [⟨0,0,0,0,0,0⟩, ⟨1,1,1,1,1,1⟩] 0 < 1/2 then
         1 - p0Of [[0],[2]] [[0]] 0 [⟨0,0,0,0,0,0⟩, ⟨1,1,1,1,1,1⟩] 0
       else p0Of [[0],[2]] [[0]] 0 [⟨0,0,0,0,0,0⟩, ⟨1,1,1,1,1,1⟩] 0⟩) ∧
    ((1 : ℚ)/2 = 1/2 →
      1/2 ≤ ((output_dataframe_model (⟨none, [[0, 0, 1]]⟩ : CalcResult).modelP).getD 0
        ⟨0, "", 0⟩).prob) :=
  C5_model_posterior [[0],[2]] [⟨0,0,0,0,0,0⟩, ⟨1,1,1,1,1,1⟩] [[0]] 2 0 (1/2) false 0
    ⟨none, [[0, 0, 1]]⟩ 0
    (by norm_num [calculate_results, maskOf, errorsMatrix, transposeCols, numVox, l1dist,
      thresholds, quantile, sortList, insertSorted, acceptMask, countTrue, flatOf,
      acceptedSizeOf, flatAccepted, selectRows, groupAt, countZeros, p0Of, List.filter,
      List.zip, List.zipWith, List.range_succ, List.getD])
    (by norm_num [numVox])
    (by norm_num [acceptedSizeOf, maskOf, errorsMatrix, transposeCols, numVox, l1dist,
      thresholds, quantile, sortList, insertSorted, acceptMask, countTrue, List.filter,
      List.zip, List.zipWith, List.range_succ, List.getD])

theorem maskOf_row_length (M Ct : List (List ℚ)) (thresh : ℚ) (v : ℕ)
    (hv : v < numVox Ct) : ((maskOf M Ct thresh).getD v []).length = M.length := by
  rw [maskOf_getD M Ct thresh v hv, List.length_map, errorsMatrix_row_length M Ct v hv]

/-- When every voxel's accepted count equals `accepted_size`, the reshape
group of voxel `v` is exactly voxel `v`'s masked selection. -/
theorem groupAt_flatOf (M Ct : List (List ℚ)) (thresh : ℚ) (par_mat : List ParRow)
    (hcnt : ∀ v, v < numVox Ct →
      (selectRows ((maskOf M Ct thresh).getD v []) par_mat).length =
        acceptedSizeOf M Ct thresh)
    (v : ℕ) (hv : v < numVox Ct) :
    groupAt (flatOf M Ct thresh par_mat) (acceptedSizeOf M Ct thresh) v =
      selectRows ((maskOf M Ct thresh).getD v []) par_mat := by
  have hcomp : ∀ l ∈ (maskOf M Ct thresh).map (fun mrow => selectRows mrow par_mat),
      l.length = acceptedSizeOf M Ct thresh := by
    intro l hl
    obtain ⟨mrow, hm, rfl⟩ := List.mem_map.mp hl
    obtain ⟨i, hi, heq⟩ := List.mem_iff_getElem.mp hm
    have hi' : i < numVox Ct := by rw [length_maskOf] at hi; exact hi
    rw [← hcnt i hi']
    congr 1
    rw [List.getD_eq_getElem _ _ hi, heq]
  unfold groupAt flatOf flatAccepted
  rw [flatten_drop_take (acceptedSizeOf M Ct thresh) _ v hcomp
    (by simpa [length_maskOf] using hv)]
  rw [getD_map_of_lt _ (maskOf M Ct thresh) v [] [] (by simpa [length_maskOf] using hv)]

/-- C10 counterexample: on the tie chunk of C2 (per-voxel accepted counts
2, 1, 3 with a succeeding reshape), the parameter posterior is produced
and voxel 1's block of `accepted_size = 2` consecutive rows is not the
map of voxel 1's own accepted parameter rows — its accepted set has one
row, and the block's second row belongs to voxel 2.  So a voxel does not
in general contribute exactly `accepted_size` rows of its own accepted
draws. -/
theorem C10_counterexample :
    calculate_results [[0,0],[0,2],[2,0]]
      [⟨0,0,0,0,0,0⟩, ⟨1,1,1,1,1,1⟩, ⟨2,2,2,2,2,2⟩]
      [[0,0,1],[1,0,1]] 3 0 true (1/2) 0 =
      Except.ok ⟨some [(0, ⟨0,0,0,0,0,0⟩), (0, ⟨1,1,1,1,1,1⟩),
                       (1, ⟨0,0,0,0,0,0⟩), (1, ⟨0,0,0,0,0,0⟩),
                       (2, ⟨1,1,1,1,1,1⟩), (2, ⟨2,2,2,2,2,2⟩)],
                 [[0, 0, 1/2], [1, 0, 1], [2, 1, 0]]⟩ ∧
    acceptedSizeOf [[0,0],[0,2],[2,0]] [[0,0,1],[1,0,1]] 0 = 2 ∧
    (([((0:ℚ), (⟨0,0,0,0,0,0⟩ : ParRow)), (0, ⟨1,1,1,1,1,1⟩),
       (1, ⟨0,0,0,0,0,0⟩), (1, ⟨0,0,0,0,0,0⟩),
       (2, ⟨1,1,1,1,1,1⟩), (2, ⟨2,2,2,2,2,2⟩)].drop (1 * 2)).take 2 ≠
      (selectRows ((maskOf [[0,0],[0,2],[2,0]] [[0,0,1],[1,0,1]] 0).getD 1 [])
        [⟨0,0,0,0,0,0⟩, ⟨1,1,1,1,1,1⟩, ⟨2,2,2,2,2,2⟩]).map
        (fun row => (((0 + 1 : ℕ) : ℚ), row))) := by
  refine ⟨?_, ?_, ?_⟩ <;>
    norm_num [calculate_results, maskOf, errorsMatrix, transposeCols, numVox, l1dist,
      thresholds, quantile, sortList, insertSorted, acceptMask, countTrue, flatOf,
      acceptedSizeOf, flatAccepted, selectRows, groupAt, countZeros, p0Of, List.filter,
      List.zip, List.zipWith, List.range_succ, List.getD]

/-- C10 amended: whenever the parameter posterior is produced
(`write_paras` true, reshape succeeded), the chunk emits exactly
`num_vox * accepted_size` rows in `num_vox` blocks of `accepted_size`
consecutive rows, block `v` carrying the global 0-indexed `Voxel_No`
`vox_num_start + v` on every row, blocks in strictly increasing voxel
order — unconditionally.  Block `v`'s contents are voxel `v`'s own
accepted parameter rows whenever every voxel's accepted count equals
`accepted_size`; with compensating tie counts the posterior is still
produced but a block can carry draws accepted by a different voxel. -/
theorem C10_amended_rows_grouped (M : List (List ℚ)) (par_mat : List ParRow)
    (Ct : List (List ℚ)) (S : ℕ) (thresh model_0_prob_thres : ℚ) (vs : ℕ)
    (r : CalcResult)
    (hok : calculate_results M par_mat Ct S thresh true model_0_prob_thres vs =
      Except.ok r) :
    ∃ rows, r.paraRows = some rows ∧
      rows.length = numVox Ct * acceptedSizeOf M Ct thresh ∧
      (∀ v, v < numVox Ct →
        ((rows.drop (v * acceptedSizeOf M Ct thresh)).take
            (acceptedSizeOf M Ct thresh)).length = acceptedSizeOf M Ct thresh ∧
        ∀ q ∈ (rows.drop (v * acceptedSizeOf M Ct thresh)).take
            (acceptedSizeOf M Ct thresh), q.1 = ((vs + v : ℕ) : ℚ)) ∧
      ((∀ v, v < numVox Ct →
          (selectRows ((maskOf M Ct thresh).getD v []) par_mat).length =
            acceptedSizeOf M Ct thresh) →
        ∀ v, v < numVox Ct →
          (rows.drop (v * acceptedSizeOf M Ct thresh)).take
              (acceptedSizeOf M Ct thresh) =
            (selectRows ((maskOf M Ct thresh).getD v []) par_mat).map
              (fun row => (((vs + v : ℕ) : ℚ), row))) := by
  obtain ⟨-, hpr, hflat⟩ :=
    calculate_results_ok M par_mat Ct S thresh model_0_prob_thres true vs r hok
  have hgl : ∀ v, v < numVox Ct →
      (groupAt (flatOf M Ct thresh par_mat) (acceptedSizeOf M Ct thresh) v).length =
        acceptedSizeOf M Ct thresh := by
    intro v hv
    unfold groupAt
    rw [List.length_take, List.length_drop, hflat]
    have h1 : v * acceptedSizeOf M Ct thresh + acceptedSizeOf M Ct thresh ≤
        numVox Ct * acceptedSizeOf M Ct thresh := by
      have h2 : (v + 1) * acceptedSizeOf M Ct thresh ≤
          numVox Ct * acceptedSizeOf M Ct thresh :=
        Nat.mul_le_mul_right _ (by omega)
      simpa [Nat.succ_mul] using h2
    omega
  have hcomp : ∀ l ∈ (List.range (numVox Ct)).map (fun v =>
      (groupAt (flatOf M Ct thresh par_mat) (acceptedSizeOf M Ct thresh) v).map
        (fun row => (((vs + v : ℕ) : ℚ), row))),
      l.length = acceptedSizeOf M Ct thresh := by
    intro l hl
    obtain ⟨v, hvmem, rfl⟩ := List.mem_map.mp hl
    have hv' : v < numVox Ct := List.mem_range.mp hvmem
    rw [List.length_map]
    exact hgl v hv'
  refine ⟨_, by rw [hpr]; rfl, ?_, ?_, ?_⟩
  · rw [length_flatten_of_const _ (acceptedSizeOf M Ct thresh) hcomp]
    simp
  · intro v hv
    rw [flatten_drop_take (acceptedSizeOf M Ct thresh) _ v hcomp (by simpa using hv),
      getD_map_of_lt _ (List.range (numVox Ct)) v [] 0 (by simpa using hv),
      getD_range_of_lt _ _ _ hv]
    constructor
    · rw [List.length_map]
      exact hgl v hv
    · intro q hq
      obtain ⟨row, -, rfl⟩ := List.mem_map.mp hq
      rfl
  · intro hcnt v hv
    rw [flatten_drop_take (acceptedSizeOf M Ct thresh) _ v hcomp (by simpa using hv),
      getD_map_of_lt _ (List.range (numVox Ct)) v [] 0 (by simpa using hv),
      getD_range_of_lt _ _ _ hv]
    rw [groupAt_flatOf M Ct thresh par_mat hcnt v hv]

/-- C10 witness: the grouping evaluated on a concrete one-voxel chunk with
two prior draws and one accepted draw. -/
theorem C10_witness :
    ∃ rows, (⟨some [(0, ⟨0,0,0,0,0,0⟩)], [[0, 0, 1]]⟩ : CalcResult).paraRows = some rows ∧
      rows.length = numVox [[0]] * acceptedSizeOf [[0],[2]] [[0]] 0 ∧
      (∀ v, v < numVox [[0]] →
        ((rows.drop (v * acceptedSizeOf [[0],[2]] [[0]] 0)).take
            (acceptedSizeOf [[0],[2]] [[0]] 0)).length = acceptedSizeOf [[0],[2]] [[0]] 0 ∧
        ∀ q ∈ (rows.drop (v * acceptedSizeOf [[0],[2]] [[0]] 0)).take
            (acceptedSizeOf [[0],[2]] [[0]] 0), q.1 = ((0 + v : ℕ) : ℚ)) ∧
      ((∀ v, v < numVox [[0]] →
          (selectRows ((maskOf [[0],[2]] [[0]] 0).getD v [])
            [⟨0,0,0,0,0,0⟩, ⟨1,1,1,1,1,1⟩]).length = acceptedSizeOf [[0],[2]] [[0]] 0) →
        ∀ v, v < numVox [[0]] →
          (rows.drop (v * acceptedSizeOf [[0],[2]] [[0]] 0)).take
              (acceptedSizeOf [[0],[2]] [[0]] 0) =
            (selectRows ((maskOf [[0],[2]] [[0]] 0).getD v [])
              [⟨0,0,0,0,0,0⟩, ⟨1,1,1,1,1,1⟩]).map
              (fun row => (((0 + v : ℕ) : ℚ), row))) :=
  C10_amended_rows_grouped [[0],[2]] [⟨0,0,0,0,0,0⟩, ⟨1,1,1,1,1,1⟩] [[0]] 2 0 (1/2) 0
    ⟨some [(0, ⟨0,0,0,0,0,0⟩)], [[0, 0, 1]]⟩
    (by norm_num [calculate_results, maskOf, errorsMatrix, transposeCols, numVox, l1dist,
      thresholds, quantile, sortList, insertSorted, acceptMask, countTrue, flatOf,
      acceptedSizeOf, flatAccepted, selectRows, groupAt, countZeros, p0Of, List.filter,
      List.zip, List.zipWith, List.range_succ, List.getD])

/-- C3: the forward model.  First conjunct: for every prior draw and every
time frame, the generated TAC entry equals
`[(θ1·e^(-α1·Ti) + θ2·e^(-α2·Ti)) ⊛ Ca](t) · frame_duration(t) + Vb·Cb(t)`
with the convolution truncated to the first `num_time_frame` samples.
Second conjunct: every chunk result produced by the loop comes from
`calculate_results` applied to the loop's single `M` argument at the
chunk's column offset — `M` is passed unchanged through the recursion.
Third conjunct: `vABC` computes that `M` once, as `generate_FDG_models`
of the table's first three columns (with `Ca = Cb`), before the loop. -/
theorem C3_forward_model_once (expQ : ℚ → ℚ) :
    (∀ (tfs Cb Ca Ti : List ℚ) (p : ParRow) (T t : ℕ),
      Ti.length = T → Ca.length = T → Cb.length = T → tfs.length = T → t < T →
      (generate_FDG_model expQ tfs Cb Ca Ti p).getD t 0 = CtSpec expQ tfs Cb Ca Ti p t) ∧
    (∀ (M : List (List ℚ)) (par_mat : List ParRow) (cols : List (List ℚ))
        (S : ℕ) (thresh mt : ℚ) (wp : Bool) (nv cs : ℕ) (fuel : List ℕ)
        (index : ℕ) (rs : List CalcResult),
      runChunks M par_mat cols S thresh mt wp nv cs fuel index = Except.ok rs →
      ∀ i, i < rs.length →
        calculate_results M par_mat
          (extract_TAC_chunks cols (index + i * cs) cs (some nv)) S thresh wp mt
          (index + i * cs - 3) = Except.ok (rs.getD i ⟨none, []⟩)) ∧
    (∀ (num_voxel : Option ℕ) (c0 c1 c2 : List ℚ) (rest : List (List ℚ))
        (par_mat : List ParRow) (S : ℕ) (thresh mt : ℚ) (wp : Bool) (cs : ℕ),
      vABC_model expQ num_voxel (c0 :: c1 :: c2 :: rest) par_mat S thresh mt wp cs =
        match runChunks (generate_FDG_models expQ c0 c2 c2 c1 par_mat) par_mat
            (c0 :: c1 :: c2 :: rest) S thresh mt wp
            (resolveNumVoxel num_voxel (c0 :: c1 :: c2 :: rest).length) cs
            (List.range (totalIterations
              (resolveNumVoxel num_voxel (c0 :: c1 :: c2 :: rest).length)
              (c0 :: c1 :: c2 :: rest).length cs)) 3 with
        | Except.error e => Except.error (e, true)
        | Except.ok rs => Except.ok ⟨true, rs.map (fun r =>
            output_dataframe r.paraRows r.modelP wp)⟩) := by
  refine ⟨?_, ?_, ?_⟩
  · intro tfs Cb Ca Ti p T t hTi hCa hCb htfs ht
    have hker : (fdgKernel expQ p Ti).length = T := by simp [fdgKernel, hTi]
    have hfull : (convolveFull (fdgKernel expQ p Ti) Ca).length = T + T - 1 := by
      simp [convolveFull, hker, hCa]
    have hcum : (cumconv (fdgKernel expQ p Ti) Ca tfs).length = T := by
      unfold cumconv
      rw [List.length_zipWith, List.length_take, hfull, hCa, htfs]
      omega
    unfold generate_FDG_model
    rw [getD_zipWith_of_lt _ _ _ t 0 0 0 (by rw [hcum]; exact ht)
      (by rw [List.length_map, hCb]; exact ht)]
    unfold cumconv
    rw [getD_zipWith_of_lt _ _ _ t 0 0 0
      (by rw [List.length_take, hfull, hCa]; omega) (by rw [htfs]; exact ht)]
    rw [getD_take_of_lt _ _ _ _ (by rw [hCa]; exact ht)]
    unfold convolveFull
    rw [getD_map_of_lt _ (List.range ((fdgKernel expQ p Ti).length + Ca.length - 1))
      t 0 0 (by rw [List.length_range, hker, hCa]; omega)]
    rw [getD_range_of_lt _ _ _ (by rw [hker, hCa]; omega)]
    rw [getD_map_of_lt _ Cb t 0 0 (by rw [hCb]; exact ht)]
    unfold convEntry CtSpec
    congr 1
    refine congrArg (· * tfs.getD t 0) ?_
    refine Finset.sum_congr rfl (fun k hk => ?_)
    have hkT : k < Ti.length := by
      rw [hTi]
      have := Finset.mem_range.mp hk
      omega
    rw [show fdgKernel expQ p Ti = Ti.map
      (fun x => p.t1 * expQ (-(p.a1 * x)) + p.t2 * expQ (-(p.a2 * x))) from rfl]
    rw [getD_map_of_lt _ Ti k 0 0 hkT]
  · intro M par_mat cols S thresh mt wp nv cs fuel
    induction fuel with
    | nil =>
      intro index rs hrun i hi
      simp only [runChunks] at hrun
      injection hrun with h
      subst h
      simp at hi
    | cons f fuel ih =>
      intro index rs hrun i hi
      simp only [runChunks] at hrun
      by_cases hbr : index ≥ cols.length ∨ index ≥ nv + 3
      · rw [if_pos hbr] at hrun
        injection hrun with h
        subst h
        simp at hi
      · rw [if_neg hbr] at hrun
        cases hcr : calculate_results M par_mat
            (extract_TAC_chunks cols index cs (some nv)) S thresh wp mt (index - 3) with
        | error e =>
          rw [hcr] at hrun
          exact absurd hrun (by simp)
        | ok r =>
          rw [hcr] at hrun
          cases hrec : runChunks M par_mat cols S thresh mt wp nv cs fuel (index + cs) with
          | error e =>
            rw [hrec] at hrun
            exact absurd hrun (by simp)
          | ok rs' =>
            rw [hrec] at hrun
            injection hrun with h
            subst h
            cases i with
            | zero => simpa using hcr
            | succ i =>
              have hstep := ih (index + cs) rs' hrec i (by simpa using hi)
              have harith : index + cs + i * cs = index + (i + 1) * cs := by ring
              rw [harith] at hstep
              simpa using hstep
  · intro num_voxel c0 c1 c2 rest par_mat S thresh mt wp cs
    rfl

/-- C3 witness: the forward-model formula evaluated at a concrete one-frame
series and draw. -/
theorem C3_witness :
    (generate_FDG_model (fun _ => 1) [5] [4] [3] [2] ⟨0, 0, 0, 1, 0, 0⟩).getD 0 0 =
      CtSpec (fun _ => 1) [5] [4] [3] [2] ⟨0, 0, 0, 1, 0, 0⟩ 0 :=
  (C3_forward_model_once (fun _ => 1)).1 [5] [4] [3] [2] ⟨0, 0, 0, 1, 0, 0⟩ 1 0
    rfl rfl rfl rfl (by norm_num)

/-- C9: determinism of the pipeline.  Any two runs of the `main` relation
on the same configuration (same seed, prior-simulation count, threshold
and input table) produce equal outputs — both the parameter posterior
records and the model posterior records. -/
theorem C9_determinism (gen : ℕ → ℕ → List ParRow) (expQ : ℚ → ℚ) (cfg : Config)
    (o1 o2 : Except (String × Bool) RunResult)
    (h1 : Run gen expQ cfg o1) (h2 : Run gen expQ cfg o2) : o1 = o2 := by
  cases h1
  cases h2
  subst_vars
  rfl

/-- C9 witness: two derivations of the run relation on a concrete
configuration, shown to yield the same output by the determinism
theorem. -/
theorem C9_witness :
    (vABC_model (fun _ => 1) none [[1], [2], [3]] [] 1 0 (1/2) false 3 :
      Except (String × Bool) RunResult) =
      vABC_model (fun _ => 1) none [[1], [2], [3]] [] 1 0 (1/2) false 3 :=
  C9_determinism (fun _ _ => []) (fun _ => 1)
    ⟨2024, 1, 0, 1/2, none, false, 3, [[1], [2], [3]]⟩ _ _
    (Run.step _ [] _ rfl rfl) (Run.step _ [] _ rfl rfl)

/-- C4 witness: the transform evaluated on a concrete accepted draw with
all denominators nonzero. -/
theorem C4_witness :
    paraTransformRow (7, ⟨0, 1, 2, 1, 1, 1⟩) =
      ⟨7, FP.fin 0, FP.fin (K1spec ⟨0, 1, 2, 1, 1, 1⟩), FP.fin (k2spec ⟨0, 1, 2, 1, 1, 1⟩),
       FP.fin (k3spec ⟨0, 1, 2, 1, 1, 1⟩), FP.fin (k4spec ⟨0, 1, 2, 1, 1, 1⟩),
       FP.fin (KiSpec ⟨0, 1, 2, 1, 1, 1⟩), modelLabel 1⟩ :=
  (C4_kinetic_transform 7 ⟨0, 1, 2, 1, 1, 1⟩).1 (by norm_num) (by norm_num)
    (by norm_num [k2spec]) (by norm_num [k2spec, k3spec, k4spec])

end VPET
